import Mathlib

/-!
# Verification of the Boston-crimes data-cleaning pipeline

Shallow embedding of `src/data_cleaning.py`.  The incident table and the
offense-code table are modelled in two granularities, matching how the
source manipulates them:

* a dynamically typed, column-oriented dataframe (`Df`, lists of named
  `Cell` columns) for `standardize_columns`, which renames columns and
  coerces cell types;
* typed row lists (`CrimeRow`, `CodeRow`) for the row-wise cleaning
  passes (`drop_location_column_if_consistent`,
  `drop_date_column_if_consistent`, `correct_offense_description`,
  `fill_missing_offense_data`, `fill_missing_location_data`), which run
  after normalization has fixed the column types.

Floating-point cells are modelled by `ℚ` (the checks in the source use
only exact equality, parsing of plain decimal literals, and comparison
with zero); a pandas missing value (`NaN`/`NaT`/`None`) is `Option.none`.
Fallible pandas operations (`astype(float)`, tuple unpacking of a parsed
composite location) are modelled in `Except String`.
-/

/-- A parsed pandas timestamp (`pd.Timestamp`), to second precision as in
the source data.  Timestamp parsing itself is an external collaborator of
the pipeline; see `parseDatetime`. -/
structure Timestamp where
  year : Int
  month : Nat
  day : Nat
  hour : Nat
  minute : Nat
  second : Nat
deriving DecidableEq, Repr

/-- English day names indexed by Zeller's congruence value
(0 = Saturday, 1 = Sunday, ...). -/
def zellerNames : List String :=
  ["Saturday", "Sunday", "Monday", "Tuesday", "Wednesday", "Thursday", "Friday"]

/-- `pandas.Timestamp.day_name()`: the English full weekday name of the
timestamp's date (proleptic Gregorian calendar, via Zeller's congruence). -/
def dayName (t : Timestamp) : String :=
  let q : Int := t.day
  let m : Int := if t.month ≤ 2 then (t.month : Int) + 12 else (t.month : Int)
  let y : Int := if t.month ≤ 2 then t.year - 1 else t.year
  let k := y % 100
  let j := y / 100
  let h := (q + (13 * (m + 1)) / 5 + k + k / 4 + j / 4 + 5 * j) % 7
  zellerNames.getD (h.toNat % 7) ""

/-- Zero-pad a numeral to two digits, as `strftime` does. -/
def pad2 (n : Nat) : String :=
  if n < 10 then "0" ++ toString n else toString n

/-- `strftime('%H:%M')` on a (non-missing) timestamp. -/
def fmtHM (t : Timestamp) : String :=
  pad2 t.hour ++ ":" ++ pad2 t.minute

/-- Split a character list at every occurrence of the single character
`sep`, as Python's `str.split` does (never returns an empty list). -/
def splitChar (sep : Char) : List Char → List (List Char)
  | [] => [[]]
  | c :: rest =>
      if c = sep then [] :: splitChar sep rest
      else
        match splitChar sep rest with
        | [] => [[c]]
        | h :: t => (c :: h) :: t

/-- Python `str.split(", ")`: split at every (leftmost-first) occurrence
of the two-character separator comma-space. -/
def splitCommaSpace : List Char → List (List Char)
  | ',' :: ' ' :: rest => [] :: splitCommaSpace rest
  | c :: rest =>
      match splitCommaSpace rest with
      | [] => [[c]]
      | h :: t => (c :: h) :: t
  | [] => [[]]

/-- The numeral value of a list of decimal digits. -/
def digitsVal (l : List Char) : Nat :=
  l.foldl (fun n c => 10 * n + (c.toNat - 48)) 0

/-- Python `float(s)` on plain decimal literals: an optional sign, an
integer part and an optional fractional part.  `none` models the
`ValueError` raised on any other text. -/
def parseFloat (s : String) : Option ℚ :=
  let l := s.data
  let sign : ℚ := match l with | '-' :: _ => -1 | _ => 1
  let body : List Char := match l with | '-' :: r => r | '+' :: r => r | _ => l
  match splitChar '.' body with
  | [intPart] =>
      if intPart ≠ [] ∧ intPart.all Char.isDigit then
        some (sign * (digitsVal intPart : ℚ))
      else none
  | [intPart, fracPart] =>
      if (intPart ≠ [] ∨ fracPart ≠ []) ∧ intPart.all Char.isDigit ∧
          fracPart.all Char.isDigit then
        some (sign * ((digitsVal (intPart ++ fracPart) : ℚ) / (10 ^ fracPart.length : ℚ)))
      else none
  | _ => none

/-- A list of decimal digits read as a `Nat`, or `none` if empty or not
all digits. -/
def readNat (l : List Char) : Option Nat :=
  if l ≠ [] ∧ l.all Char.isDigit then some (digitsVal l) else none

/-- Modelled from the spec: timestamp parsing is provided by the external
tabular I/O library (declared out of scope by the spec), so the parser is
modelled as an ISO-like `YYYY-MM-DD HH:MM:SS` reader; any text it cannot
read yields `none`, the "missing" marker. -/
def parseDatetime (s : String) : Option Timestamp :=
  match splitChar ' ' s.data with
  | [d, t] =>
      match splitChar '-' d, splitChar ':' t with
      | [ys, ms, ds], [hs, mins, ss] => do
          let y ← readNat ys
          let mo ← readNat ms
          let da ← readNat ds
          let h ← readNat hs
          let mi ← readNat mins
          let se ← readNat ss
          if 1 ≤ mo ∧ mo ≤ 12 ∧ 1 ≤ da ∧ da ≤ 31 ∧ h < 24 ∧ mi < 60 ∧ se < 60 then
            some ⟨(y : Int), mo, da, h, mi, se⟩
          else none
      | _, _ => none
  | _ => none

/-- Python `s.strip("()")`: remove every leading and trailing `(` or `)`. -/
def stripParens (l : List Char) : List Char :=
  let isParen : Char → Bool := fun c => c = '(' || c = ')'
  ((l.dropWhile isParen).reverse.dropWhile isParen).reverse

/-- `tuple(map(float, row['LOCATION'].strip("()").split(", ")))` unpacked
into exactly two floats; `none` models the `ValueError` raised when a part
is not a float literal or the split does not yield exactly two parts. -/
def parseLocation (s : String) : Option (ℚ × ℚ) :=
  match splitCommaSpace (stripParens s.data) with
  | [a, b] => do
      let la ← parseFloat (String.mk a)
      let lo ← parseFloat (String.mk b)
      pure (la, lo)
  | _ => none

/-- Python `s.replace('"', '')`: remove every double-quote character. -/
def stripQuotes (s : String) : String :=
  String.mk (s.data.filter (fun c => c ≠ '"'))

/-- Python `s.upper()` (restricted to the basic-latin mapping of
`Char.toUpper`), modelled over the character list. -/
def pyUpper (s : String) : String :=
  String.mk (s.data.map Char.toUpper)

/-- A pandas cell of an object-typed column: missing (`NaN`/`NaT`/`None`),
text, a float (modelled by `ℚ`), or a parsed timestamp. -/
inductive Cell where
  | null : Cell
  | str : String → Cell
  | num : ℚ → Cell
  | dt : Timestamp → Cell
deriving DecidableEq, Repr

/-- A dataframe: named columns of cells, in column order. -/
abbrev Df := List (String × List Cell)

/-- `df.columns.str.upper()`. -/
def dfUpperCols (df : Df) : Df :=
  df.map (fun p => (pyUpper p.1, p.2))

/-- `df.rename(columns={'LAT': 'LATITUDE', 'LONG': 'LONGITUDE'})`. -/
def dfRename (df : Df) : Df :=
  df.map (fun p =>
    (if p.1 = "LAT" then "LATITUDE" else if p.1 = "LONG" then "LONGITUDE" else p.1, p.2))

/-- `df[name]`: the first column labelled `name` (`none` = `KeyError`). -/
def dfGet (df : Df) (name : String) : Option (List Cell) :=
  (df.find? (fun p => p.1 = name)).map (fun p => p.2)

/-- Whether a column labelled `name` exists (`name in df.columns`). -/
def dfHas (df : Df) (name : String) : Bool :=
  df.any (fun p => p.1 = name)

/-- `df[name] = col`: replace every column labelled `name` (pandas
assigns all duplicate labels at once), or append a new column. -/
def dfSet (df : Df) (name : String) (col : List Cell) : Df :=
  if dfHas df name then
    df.map (fun p => if p.1 = name then (p.1, col) else p)
  else
    df ++ [(name, col)]

/-- `astype(float)` on one cell: missing stays missing, floats stay,
numeric text is parsed, anything else raises (`ValueError`/`TypeError`). -/
def astypeFloat : Cell → Except String Cell
  | .null => .ok .null
  | .num q => .ok (.num q)
  | .str s =>
      match parseFloat s with
      | some q => .ok (.num q)
      | none => .error "ValueError: could not convert string to float"
  | .dt _ => .error "TypeError: float() argument must be a string or a number"

/-- `pd.to_datetime(cell, errors='coerce')` on one cell: already-parsed
timestamps and missing values pass through, text is parsed with
unparseable text coerced to missing.  (Numeric epoch cells are outside
the CSV data domain of this pipeline and are modelled as coerced to
missing.) -/
def toDatetimeCoerce : Cell → Cell
  | .null => .null
  | .dt t => .dt t
  | .str s =>
      match parseDatetime s with
      | some t => .dt t
      | none => .null
  | .num _ => .null

/-- `.str.upper()` on one cell of an object column: non-string values
(including missing) become missing. -/
def upperCell : Cell → Cell
  | .str s => .str (pyUpper s)
  | _ => .null

/-- Left-to-right effectful map: models a pandas columnwise conversion
(or row-wise `apply`) that raises at the first failing element. -/
def listMapE (f : α → Except String β) : List α → Except String (List β)
  | [] => .ok []
  | a :: l =>
      match f a, listMapE f l with
      | .ok b, .ok bs => .ok (b :: bs)
      | .error e, _ => .error e
      | .ok _, .error e => .error e

/-- The text columns upper-cased by the Schema Normalizer. -/
def textCols : List String := ["OFFENSE_DESCRIPTION", "DISTRICT", "STREET"]

/-- One step of the text-column loop: `if col in crimes.columns:
crimes[col] = crimes[col].str.upper()`. -/
def upperTextCol (df : Df) (col : String) : Df :=
  match dfGet df col with
  | some c => dfSet df col (c.map upperCell)
  | none => df

/-- The `for col in text_cols` loop of `standardize_columns`. -/
def upperTextCols (df : Df) : Df :=
  textCols.foldl upperTextCol df

/-- `standardize_columns(crimes, offense_codes)` (lines 3-16 of
`data_cleaning.py`): upper-case both tables' column names, rename
`LAT`/`LONG`, cast the coordinate columns to float (raising on
non-numeric text), coerce the timestamp column (degrading unparseable
text to missing), and upper-case the three text columns when present.
A missing coordinate or timestamp column is a `KeyError`. -/
def standardize_columns (crimes offense_codes : Df) : Except String (Df × Df) :=
  let c1 := dfRename (dfUpperCols crimes)
  let o1 := dfUpperCols offense_codes
  match dfGet c1 "LATITUDE", dfGet c1 "LONGITUDE" with
  | some latCol, some lonCol =>
      match listMapE astypeFloat latCol, listMapE astypeFloat lonCol with
      | .ok latCol2, .ok lonCol2 =>
          let c2 := dfSet (dfSet c1 "LATITUDE" latCol2) "LONGITUDE" lonCol2
          match dfGet c2 "OCCURRED_ON_DATE" with
          | some dateCol =>
              let c3 := dfSet c2 "OCCURRED_ON_DATE" (dateCol.map toDatetimeCoerce)
              .ok (upperTextCols c3, o1)
          | none => .error "KeyError: OCCURRED_ON_DATE"
      | .error e, _ => .error e
      | .ok _, .error e => .error e
  | _, _ => .error "KeyError: LATITUDE/LONGITUDE"

/-- One incident record, with the post-normalization column types:
coordinates are floats, the timestamp is parsed, missing is `none`. -/
structure CrimeRow where
  offense_code : Int
  offense_description : Option String
  offense_code_group : Option String
  district : Option String
  street : Option String
  latitude : Option ℚ
  longitude : Option ℚ
  location : Option String
  occurred_on_date : Option Timestamp
  year : Option Int
  month : Option Int
  day_of_week : Option String
  time : Option String
  shooting : Option String
deriving DecidableEq, Repr

/-- One offense-code table record. -/
structure CodeRow where
  code : Int
  name : String
deriving DecidableEq, Repr

/-- The row predicate `is_consistent` of
`drop_location_column_if_consistent` (lines 24-33): the first branch
treats missing-or-zero coordinates with a missing-or-canonical-zero
composite as consistent; otherwise a present composite is parsed (a
parse failure raises `ValueError`) and compared for exact equality with
the row's pair (a missing coordinate never equals a parsed float, as
`NaN == x` is false); an absent composite is consistent. -/
def is_consistent_loc (r : CrimeRow) : Except String Bool :=
  if (r.latitude = none ∨ r.longitude = none ∨ (r.latitude = some 0 ∧ r.longitude = some 0)) ∧
      (r.location = none ∨ r.location = some "(0.00000000, 0.00000000)") then
    .ok true
  else
    match r.location with
    | some s =>
        match parseLocation s with
        | some (la, lo) => .ok (decide (r.latitude = some la ∧ r.longitude = some lo))
        | none => .error "ValueError: could not convert string to float"
    | none => .ok true

/-- Result of the location Redundancy Resolver: the table, whether the
`LOCATION` column was dropped, and the printed report (the
latitude/longitude/composite of each inconsistent row, plus the count). -/
structure LocResult where
  crimes : List CrimeRow
  locationDropped : Bool
  inconsistent : List (Option ℚ × Option ℚ × Option String)
  mismatchCount : Nat
deriving DecidableEq, Repr

/-- `drop_location_column_if_consistent(crimes)` (lines 19-47): apply
`is_consistent` row-wise (raising at the first row whose composite fails
to parse), report the inconsistent rows and keep the column if any, or
drop the `LOCATION` column if none. -/
def drop_location_column_if_consistent (crimes : List CrimeRow) :
    Except String LocResult :=
  match listMapE is_consistent_loc crimes with
  | .error e => .error e
  | .ok verdicts =>
      let inconsistentRows := ((crimes.zip verdicts).filter (fun p => !p.2)).map (fun p => p.1)
      if inconsistentRows.isEmpty then
        .ok ⟨crimes.map (fun r => { r with location := none }), true, [], 0⟩
      else
        .ok ⟨crimes, false,
          inconsistentRows.map (fun r => (r.latitude, r.longitude, r.location)),
          inconsistentRows.length⟩

/-- The row predicate `is_consistent` of `drop_date_column_if_consistent`
(lines 54-57): the split fields must equal the decomposition of the
timestamp; a missing timestamp yields missing components, which compare
unequal. -/
def is_consistent_date (r : CrimeRow) : Bool :=
  match r.occurred_on_date with
  | some ts =>
      decide (r.year = some ts.year ∧ r.month = some (ts.month : Int) ∧
        r.day_of_week = some (dayName ts))
  | none => false

/-- Result of the date Redundancy Resolver: the table, whether
`OCCURRED_ON_DATE` was dropped, and the (aggregate-only) console
message. -/
structure DateResult where
  crimes : List CrimeRow
  dateDropped : Bool
  message : String
deriving DecidableEq, Repr

/-- `drop_date_column_if_consistent(crimes)` (lines 50-65): drop
`OCCURRED_ON_DATE` iff every row's split fields agree with the
timestamp; otherwise retain it, printing only an aggregate message. -/
def drop_date_column_if_consistent (crimes : List CrimeRow) : DateResult :=
  if crimes.all is_consistent_date then
    ⟨crimes.map (fun r => { r with occurred_on_date := none }), true,
      "OCCURRED_ON_DATE column deleted as split fields are consistent."⟩
  else
    ⟨crimes, false, "OCCURRED_ON_DATE column retained due to inconsistencies."⟩

/-- `drop_duplicates(subset=key)`: keep the first record for each key
(`seen` accumulates the keys already kept). -/
def dropDupBy (key : α → Int) (seen : List Int) : List α → List α
  | [] => []
  | a :: l =>
      if key a ∈ seen then dropDupBy key seen l
      else a :: dropDupBy key (key a :: seen) l

/-- `.str.replace('"', '').str.upper()` applied to a code-table name. -/
def normalizeName (s : String) : String :=
  pyUpper (stripQuotes s)

/-- `correct_offense_description(crimes, offense_codes)` (lines 68-77):
normalize the code table's `NAME` column in place, build the
code-to-name dictionary from the first occurrence of each code, and map
it over the incident table's codes, keeping the original description
where the code is absent (`fillna`). -/
def correct_offense_description (crimes : List CrimeRow) (offense_codes : List CodeRow) :
    List CrimeRow × List CodeRow :=
  let offense_codes := offense_codes.map (fun c => { c with name := normalizeName c.name })
  let code_to_name := (dropDupBy (fun c => c.code) [] offense_codes).map
    (fun c => (c.code, c.name))
  let crimes := crimes.map (fun r =>
    match List.lookup r.offense_code code_to_name with
    | some n => { r with offense_description := some n }
    | none => r)
  (crimes, offense_codes)

/-- `fill_missing_offense_data(crimes)` (lines 79-102): build
code-to-first-non-missing-group and code-to-first-non-missing-description
dictionaries from the rows that already carry the value, then assign
`map(dict).fillna(original)` over both columns: a row whose code has a
donor receives the donor's value, any other row keeps its own. -/
def fill_missing_offense_data (crimes : List CrimeRow) : List CrimeRow :=
  let code_to_group :=
    (dropDupBy (fun r => r.offense_code) []
        (crimes.filter (fun r => r.offense_code_group.isSome))).map
      (fun r => (r.offense_code, r.offense_code_group))
  let code_to_description :=
    (dropDupBy (fun r => r.offense_code) []
        (crimes.filter (fun r => r.offense_description.isSome))).map
      (fun r => (r.offense_code, r.offense_description))
  crimes.map (fun r =>
    { r with
      offense_code_group :=
        match List.lookup r.offense_code code_to_group with
        | some v => v
        | none => r.offense_code_group
      offense_description :=
        match List.lookup r.offense_code code_to_description with
        | some v => v
        | none => r.offense_description })

/-- The groupby key of a row: its coordinate pair, or `none` when either
coordinate is missing (pandas `groupby` drops rows with a missing key). -/
def rowKey (r : CrimeRow) : Option (ℚ × ℚ) :=
  match r.latitude, r.longitude with
  | some la, some lo => some (la, lo)
  | _, _ => none

/-- The distinct non-missing coordinate pairs of the table: the group
keys of `crimes.groupby(['LATITUDE', 'LONGITUDE'])`.  (pandas iterates
each distinct key exactly once, in sorted key order; the fold in
`fill_missing_location_data` is proved insensitive to the order and
multiplicity of keys, so first-appearance order is used here.) -/
def groupKeys (crimes : List CrimeRow) : List (ℚ × ℚ) :=
  (crimes.filterMap rowKey).dedup

/-- `get_first_non_null`: the first non-missing value of a column slice,
or `None`. -/
def firstNonNull (l : List (Option String)) : Option String :=
  (l.filterMap id).head?

/-- The rows of the group keyed by `k` (both the `groupby` group and the
`crimes[(crimes['LATITUDE'] == lat) & (crimes['LONGITUDE'] == lon)]`
row selection, which coincide since `NaN` compares false). -/
def sameKeyRows (crimes : List CrimeRow) (k : ℚ × ℚ) : List CrimeRow :=
  crimes.filter (fun r => decide (r.latitude = some k.1 ∧ r.longitude = some k.2))

/-- One iteration of the group loop of `fill_missing_location_data`:
compute the group's first non-missing `DISTRICT` and `STREET` from the
original table (`groupby` is computed before the loop) and assign them
to every currently-selected row with that coordinate pair. -/
def locGroupUpdate (orig : List CrimeRow) (k : ℚ × ℚ) (cur : List CrimeRow) : List CrimeRow :=
  let group := sameKeyRows orig k
  let fd := firstNonNull (group.map (fun r => r.district))
  let fs := firstNonNull (group.map (fun r => r.street))
  cur.map (fun r =>
    if r.latitude = some k.1 ∧ r.longitude = some k.2 then
      { r with district := fd, street := fs }
    else r)

/-- `fill_missing_location_data(crimes)` (lines 104-130): for each
coordinate group, overwrite every member's `DISTRICT` and `STREET` with
the group's first non-missing values. -/
def fill_missing_location_data (crimes : List CrimeRow) : List CrimeRow :=
  (groupKeys crimes).foldl (fun cur k => locGroupUpdate crimes k cur) crimes

/-- Lines 142-145 of `main`: overwrite `YEAR`, `MONTH`, `DAY_OF_WEEK`
and `TIME` from the freshly parsed `OCCURRED_ON_DATE` (`dt.year`,
`dt.month`, `dt.day_name()`, `dt.strftime('%H:%M')`; a missing timestamp
yields missing components). -/
def deriveDateColumns (crimes : List CrimeRow) : List CrimeRow :=
  crimes.map (fun r =>
    match r.occurred_on_date with
    | some ts =>
        { r with
          year := some ts.year
          month := some (ts.month : Int)
          day_of_week := some (dayName ts)
          time := some (fmtHM ts) }
    | none => { r with year := none, month := none, day_of_week := none, time := none })

/-- Agreement rule A exactly as the spec states it (4.2): BOTH latitude
and longitude missing, or both exactly zero, AND the composite string
missing or equal to the canonical zero representation. -/
def specRuleA (r : CrimeRow) : Bool :=
  decide (((r.latitude = none ∧ r.longitude = none) ∨
      (r.latitude = some 0 ∧ r.longitude = some 0)) ∧
    (r.location = none ∨ r.location = some "(0.00000000, 0.00000000)"))

/-- Agreement rule B (4.2): a present composite string parses exactly to
the row's coordinate pair. -/
def specRuleB (r : CrimeRow) : Bool :=
  match r.location with
  | some s =>
      match parseLocation s with
      | some (la, lo) => decide (r.latitude = some la ∧ r.longitude = some lo)
      | none => false
  | none => false

/-- Agreement rule C (4.2): an absent composite string is consistent. -/
def specRuleC (r : CrimeRow) : Bool :=
  decide (r.location = none)

/-- Rule A as the code actually implements it: latitude missing OR
longitude missing, or both zero — together with the composite condition. -/
def codeRuleA (r : CrimeRow) : Bool :=
  decide ((r.latitude = none ∨ r.longitude = none ∨
      (r.latitude = some 0 ∧ r.longitude = some 0)) ∧
    (r.location = none ∨ r.location = some "(0.00000000, 0.00000000)"))

/-- The per-row agreement the code's `is_consistent` decides (in its
non-raising cases): the implemented rule A, or rule B, or rule C. -/
def codeAgreement (r : CrimeRow) : Bool :=
  codeRuleA r || specRuleB r || specRuleC r

/-- The row update `applyKeyUpdate orig k` performed on every member of
the coordinate group `k` by `fill_missing_location_data`. -/
def applyKeyUpdate (orig : List CrimeRow) (k : ℚ × ℚ) (r : CrimeRow) : CrimeRow :=
  { r with
    district := firstNonNull ((sameKeyRows orig k).map (fun s => s.district))
    street := firstNonNull ((sameKeyRows orig k).map (fun s => s.street)) }

/-- An all-missing incident row, used to build concrete test rows. -/
def baseRow : CrimeRow where
  offense_code := 0
  offense_description := none
  offense_code_group := none
  district := none
  street := none
  latitude := none
  longitude := none
  location := none
  occurred_on_date := none
  year := none
  month := none
  day_of_week := none
  time := none
  shooting := none

/-- A row with a missing latitude, a non-missing non-zero longitude and
the canonical zero composite: the code's first branch accepts it, but
none of the spec's agreement rules A, B, C does. -/
def c1cexRow : CrimeRow :=
  { baseRow with longitude := some 5, location := some "(0.00000000, 0.00000000)" }

/-- A fully zero/consistent row: coordinates zero, composite canonical. -/
def c1okRow : CrimeRow :=
  { baseRow with
    latitude := some 0
    longitude := some 0
    location := some "(0.00000000, 0.00000000)" }

/-- A row whose present composite string is not parseable as
`(float, float)`. -/
def c8row : CrimeRow :=
  { baseRow with latitude := some 1, longitude := some 1, location := some "foo" }

/-- Concrete incident table for the lookup-corrector scenario. -/
def c2crime1 : CrimeRow := { baseRow with offense_code := 100, offense_description := some "OLD" }

/-- Second concrete incident row (code absent from the code table). -/
def c2crime2 : CrimeRow := { baseRow with offense_code := 999, offense_description := some "OTHER" }

/-- Concrete code table for the lookup-corrector scenario. -/
def c2codes : List CodeRow := [⟨100, "\"larceny\""⟩]

/-- Two rows sharing an offense code with different non-missing groups:
the first-seen donor overwrites the second row's value. -/
def c6row1 : CrimeRow := { baseRow with offense_code := 1, offense_code_group := some "A" }

/-- The second row of the `fill_missing_offense_data` counterexample. -/
def c6row2 : CrimeRow := { baseRow with offense_code := 1, offense_code_group := some "B" }

/-- Group-consensus scenario rows: two rows share coordinates (1, 2),
one carries a district, the other does not; a third row differs. -/
def c5row1 : CrimeRow :=
  { baseRow with
    latitude := some 1
    longitude := some 2
    district := some "A"
    street := some "MAIN ST" }

/-- Second member of the coordinate group (district/street missing). -/
def c5row2 : CrimeRow := { baseRow with latitude := some 1, longitude := some 2 }

/-- A differently-coordinated row, unaffected by the group fill. -/
def c5row3 : CrimeRow :=
  { baseRow with latitude := some 3, longitude := some 4, district := some "C" }

/-- A row carrying a full timestamp whose split fields agree with it. -/
def c4okRow : CrimeRow :=
  { baseRow with
    occurred_on_date := some ⟨2018, 9, 2, 13, 0, 0⟩
    year := some 2018
    month := some 9
    day_of_week := some "Sunday" }

/-- A row carrying a full timestamp, with split fields left missing (the
driver overwrites them before the date check). -/
def c10row : CrimeRow :=
  { baseRow with occurred_on_date := some ⟨2018, 9, 2, 13, 0, 0⟩ }

/-- Concrete crimes dataframe whose latitude column holds non-numeric
text and whose timestamp column holds unparseable text. -/
def c3crimes : Df :=
  [("LATITUDE", [Cell.str "abc"]), ("LONGITUDE", [Cell.str "1.0"]),
    ("OCCURRED_ON_DATE", [Cell.str "junk"])]

/-- Concrete crimes dataframe with numeric coordinates and one
unparseable timestamp cell. -/
def c3okCrimes : Df :=
  [("LATITUDE", [Cell.num 1]), ("LONGITUDE", [Cell.null]),
    ("OCCURRED_ON_DATE", [Cell.str "junk"])]

/-- Concrete crimes dataframe exercising the full Schema Normalizer
(legacy names, numeric text, a parseable and an unparseable timestamp,
mixed-case text). -/
def c7crimes : Df :=
  [("lat", [Cell.str "42.0", Cell.null]), ("Long", [Cell.str "-71.5", Cell.num 3]),
    ("occurred_on_date", [Cell.str "2018-09-02 13:00:00", Cell.str "junk"]),
    ("district", [Cell.str "b2", Cell.null])]

/-- Concrete offense-codes dataframe with a lower-case column name. -/
def c7codes : Df := [("code", [Cell.num 100])]

/-- The result of the location resolver on the all-zero consistent row. -/
def c1okRes : LocResult := ⟨[{ c1okRow with location := none }], true, [], 0⟩

/-- The final value of a row after the group loop has run over the keys
`ks`: the row is overwritten by its own key's group values when that key
is among the iterated keys, and untouched otherwise. -/
def locFinal (orig : List CrimeRow) (ks : List (ℚ × ℚ)) (r : CrimeRow) : CrimeRow :=
  match rowKey r with
  | some k => if k ∈ ks then applyKeyUpdate orig k r else r
  | none => r

/-- Every column labelled `n` holds exactly the cells `v`, and one such
column exists: the state after `df[n] = v` has been assigned. -/
def colFixed (df : Df) (n : String) (v : List Cell) : Prop :=
  dfGet df n = some v ∧ ∀ p ∈ df, p.1 = n → p.2 = v

/-- A column name that the Schema Normalizer's renaming pass maps to
itself: already upper-case and not a legacy alias. -/
def goodName (n : String) : Prop :=
  pyUpper n = n ∧ n ≠ "LAT" ∧ n ≠ "LONG"

/-- All column names of `df` are fixed by upper-casing and renaming. -/
def goodNames (df : Df) : Prop :=
  ∀ p ∈ df, goodName p.1

/-- All column names of `df` are fixed by upper-casing. -/
def upperNames (df : Df) : Prop :=
  ∀ p ∈ df, pyUpper p.1 = p.1

/-- The Schema Normalizer's output on `c7crimes` (names upper-cased and
renamed, coordinates floats, timestamps parsed or missing, text
upper-cased). -/
def c7outCrimes : Df :=
  [("LATITUDE", [Cell.num 42, Cell.null]),
    ("LONGITUDE", [Cell.num (-143 / 2), Cell.num 3]),
    ("OCCURRED_ON_DATE", [Cell.dt ⟨2018, 9, 2, 13, 0, 0⟩, Cell.null]),
    ("DISTRICT", [Cell.str "B2", Cell.null])]

/-- The Schema Normalizer's output on `c7codes`. -/
def c7outCodes : Df := [("CODE", [Cell.num 100])]

set_option maxRecDepth 10000

/-! ## Helper lemmas -/

theorem char_toNat_ofNat_valid (n : Nat) (h : n.isValidChar) : (Char.ofNat n).toNat = n := by
  simp only [Char.ofNat, dif_pos h]
  rfl

theorem toUpper_idem (c : Char) : c.toUpper.toUpper = c.toUpper := by
  simp only [Char.toUpper]
  by_cases h : c.toNat ≥ 97 ∧ c.toNat ≤ 122
  · rw [if_pos h]
    have hv : (c.toNat - 32).isValidChar := Or.inl (by omega)
    rw [char_toNat_ofNat_valid _ hv, if_neg (by omega)]
  · rw [if_neg h, if_neg h]

theorem pyUpper_idem (s : String) : pyUpper (pyUpper s) = pyUpper s := by
  unfold pyUpper
  congr 1
  show (s.data.map Char.toUpper).map Char.toUpper = s.data.map Char.toUpper
  rw [List.map_map]
  exact List.map_congr_left (fun a _ => toUpper_idem a)

theorem upperCell_idem (c : Cell) : upperCell (upperCell c) = upperCell c := by
  cases c <;> simp [upperCell, pyUpper_idem]

theorem toDatetimeCoerce_idem (c : Cell) :
    toDatetimeCoerce (toDatetimeCoerce c) = toDatetimeCoerce c := by
  cases c with
  | str s =>
      simp only [toDatetimeCoerce]
      cases parseDatetime s <;> simp [toDatetimeCoerce]
  | _ => rfl

theorem astypeFloat_fix {c c' : Cell} (h : astypeFloat c = .ok c') :
    astypeFloat c' = .ok c' := by
  cases c with
  | null => cases h; rfl
  | num q => cases h; rfl
  | dt t => cases h
  | str s =>
      simp only [astypeFloat] at h
      cases hp : parseFloat s <;> rw [hp] at h
      · cases h
      · cases h; rfl

theorem listMapE_nil_inv {f : α → Except String β} {bs : List β}
    (h : listMapE f [] = .ok bs) : bs = [] := by
  simp only [listMapE] at h
  cases h; rfl

theorem listMapE_cons_inv {f : α → Except String β} {a : α} {l : List α} {bs : List β}
    (h : listMapE f (a :: l) = .ok bs) :
    ∃ b tl, f a = .ok b ∧ listMapE f l = .ok tl ∧ bs = b :: tl := by
  simp only [listMapE] at h
  cases hfa : f a <;> rw [hfa] at h
  · cases h
  · cases hfl : listMapE f l <;> rw [hfl] at h
    · cases h
    · cases h
      exact ⟨_, _, rfl, rfl, rfl⟩

theorem listMapE_astype_fix {l l' : List Cell}
    (h : listMapE astypeFloat l = .ok l') : listMapE astypeFloat l' = .ok l' := by
  induction l generalizing l' with
  | nil => cases listMapE_nil_inv h; rfl
  | cons a t ih =>
      obtain ⟨b, tl, hfa, hfl, rfl⟩ := listMapE_cons_inv h
      simp only [listMapE, astypeFloat_fix hfa, ih hfl]

theorem lookup_dropDupBy (key : α → Int) (val : α → β) (k : Int) :
    ∀ (l : List α) (seen : List Int),
    List.lookup k ((dropDupBy key seen l).map (fun a => (key a, val a))) =
      if k ∈ seen then none else (l.find? (fun a => key a == k)).map val := by
  intro l
  induction l with
  | nil => intro seen; simp [dropDupBy]
  | cons a t ih =>
      intro seen
      by_cases hmem : key a ∈ seen
      · rw [dropDupBy, if_pos hmem, ih]
        by_cases hk : k ∈ seen
        · rw [if_pos hk, if_pos hk]
        · have h2 : (key a == k) = false := by
            rw [beq_eq_false_iff_ne]
            intro he
            exact hk (he ▸ hmem)
          rw [if_neg hk, if_neg hk]
          simp only [List.find?_cons, h2]
      · rw [dropDupBy, if_neg hmem, List.map_cons]
        by_cases hak : key a = k
        · subst hak
          simp only [List.lookup_cons_self, List.find?_cons, beq_self_eq_true,
            if_neg hmem, Option.map_some']
        · have h1 : (k == key a) = false := by
            rw [beq_eq_false_iff_ne]
            exact fun he => hak he.symm
          have h2 : (key a == k) = false := by
            rw [beq_eq_false_iff_ne]
            exact hak
          rw [List.lookup_cons, h1]
          simp only [List.find?_cons, h2]
          rw [ih]
          by_cases hk : k ∈ seen
          · rw [if_pos (List.mem_cons_of_mem _ hk), if_pos hk]
          · rw [if_neg (fun hin => by
                rcases List.mem_cons.mp hin with he | hs
                exacts [hak he.symm, hk hs]), if_neg hk]

theorem find?_filter_and (l : List α) (p q : α → Bool) :
    (l.filter p).find? q = l.find? (fun a => p a && q a) := by
  induction l with
  | nil => rfl
  | cons a t ih =>
      by_cases hp : p a = true
      · by_cases hq : q a = true
        · simp only [List.filter_cons, hp, if_true, List.find?_cons, hq, Bool.and_true]
        · have hq' : q a = false := by revert hq; cases q a <;> simp
          simp only [List.filter_cons, hp, if_true, List.find?_cons, hq', Bool.and_false, ih]
      · have hp' : p a = false := by revert hp; cases p a <;> simp
        simp only [List.filter_cons, hp', Bool.false_eq_true, if_false, List.find?_cons,
          Bool.false_and, ih]

theorem lookup_code_to_name (codes : List CodeRow) (k : Int) :
    List.lookup k ((dropDupBy (fun c => c.code) []
        (codes.map (fun c => { c with name := normalizeName c.name }))).map
      (fun c => (c.code, c.name))) =
    (codes.find? (fun c => c.code == k)).map (fun c => normalizeName c.name) := by
  have h := lookup_dropDupBy (fun c : CodeRow => c.code) (fun c => c.name) k
    (codes.map (fun c => { c with name := normalizeName c.name })) []
  simp only [List.not_mem_nil, if_false] at h
  rw [List.find?_map] at h
  rw [Option.map_map] at h
  exact h

/-- C2 (confirmed): after `correct_offense_description`, every incident
record whose offense code appears in the code table has its description
equal to the name of the first occurrence of that code in the code table
(double quotes stripped, upper-cased), and every record whose code is
absent keeps its original description unchanged. -/
theorem correct_offense_description_lookup (crimes : List CrimeRow) (codes : List CodeRow)
    (i : Nat) (r : CrimeRow) (h : crimes[i]? = some r) :
    ((∃ c ∈ codes, c.code = r.offense_code) →
      (correct_offense_description crimes codes).1[i]? =
        some { r with
          offense_description :=
            (codes.find? (fun c => c.code == r.offense_code)).map
              (fun c => normalizeName c.name) }) ∧
    ((∀ c ∈ codes, c.code ≠ r.offense_code) →
      (correct_offense_description crimes codes).1[i]? = some r) := by
  unfold correct_offense_description
  simp only [List.getElem?_map, h, Option.map_some']
  constructor
  · rintro ⟨c0, hc0, hcode⟩
    rw [lookup_code_to_name]
    have hs : (codes.find? (fun c => c.code == r.offense_code)).isSome :=
      List.find?_isSome.mpr ⟨c0, hc0, by rw [beq_iff_eq]; exact hcode⟩
    obtain ⟨c1, hc1⟩ := Option.isSome_iff_exists.mp hs
    rw [hc1]
    rfl
  · intro hall
    rw [lookup_code_to_name]
    have hn : codes.find? (fun c => c.code == r.offense_code) = none :=
      List.find?_eq_none.mpr (fun c hc => by
        rw [beq_iff_eq]
        exact hall c hc)
    rw [hn]
    rfl

/-- C2 witness: the spec's scenario — code table `(100, "larceny")`,
incidents `(100, OLD)` and `(999, OTHER)` — at the first row. -/
theorem correct_offense_description_lookup_witness :
    (correct_offense_description [c2crime1, c2crime2] c2codes).1[0]? =
      some { c2crime1 with
        offense_description :=
          (c2codes.find? (fun c => c.code == c2crime1.offense_code)).map
            (fun c => normalizeName c.name) } :=
  (correct_offense_description_lookup [c2crime1, c2crime2] c2codes 0 c2crime1 rfl).1
    ⟨⟨100, "\"larceny\""⟩, by decide, by decide⟩

/-- C9 (confirmed): `correct_offense_description` changes only the
`NAME` column of the code table and only the `OFFENSE_DESCRIPTION`
column of the incident table; the number and order of rows of both
tables are preserved. -/
theorem correct_offense_description_frame (crimes : List CrimeRow) (codes : List CodeRow) :
    ((correct_offense_description crimes codes).1.length = crimes.length ∧
      (correct_offense_description crimes codes).2.length = codes.length) ∧
    (∀ (i : Nat) (c : CodeRow), codes[i]? = some c →
      (correct_offense_description crimes codes).2[i]? =
        some { c with name := normalizeName c.name }) ∧
    (∀ (i : Nat) (r : CrimeRow), crimes[i]? = some r → ∃ d,
      (correct_offense_description crimes codes).1[i]? =
        some { r with offense_description := d }) := by
  unfold correct_offense_description
  refine ⟨⟨by simp, by simp⟩, ?_, ?_⟩
  · intro i c hc
    simp only [List.getElem?_map, hc, Option.map_some']
  · intro i r hr
    simp only [List.getElem?_map, hr, Option.map_some']
    cases hl : List.lookup r.offense_code ((dropDupBy (fun c => c.code) []
        (codes.map (fun c => { c with name := normalizeName c.name }))).map
      (fun c => (c.code, c.name))) with
    | none => exact ⟨r.offense_description, rfl⟩
    | some n => exact ⟨some n, rfl⟩

/-- C9 witness: the code table's row is normalized in place, the
incident row keeps all non-description fields. -/
theorem correct_offense_description_frame_witness :
    (correct_offense_description [c2crime1] c2codes).2[0]? =
      some { (⟨100, "\"larceny\""⟩ : CodeRow) with name := normalizeName "\"larceny\"" } :=
  (correct_offense_description_frame [c2crime1] c2codes).2.1 0 ⟨100, "\"larceny\""⟩ rfl

/-- C6 counterexample: two rows share offense code 1 with different
non-missing groups "A" and "B"; `fill_missing_offense_data` overwrites
the second row's non-missing "B" with the first-seen "A", so a record
whose `OFFENSE_CODE_GROUP` is already non-missing does NOT keep its
value. -/
theorem fill_missing_offense_data_overwrites :
    c6row2.offense_code_group = some "B" ∧
    (fill_missing_offense_data [c6row1, c6row2])[1]? =
      some { c6row2 with offense_code_group := some "A" } := by
  constructor
  · rfl
  · rfl

/-- C6 (amended): `fill_missing_offense_data` assigns to every record
whose code has a first-seen non-missing donor the donor's value for
`OFFENSE_CODE_GROUP` (resp. `OFFENSE_DESCRIPTION`) — overwriting
existing values, not only filling missing ones — and leaves a record
unchanged (missing stays missing) when no record with its code carries a
non-missing value. -/
theorem fill_missing_offense_data_donor (crimes : List CrimeRow) (i : Nat) (r : CrimeRow)
    (h : crimes[i]? = some r) :
    (fill_missing_offense_data crimes)[i]? = some
      { r with
        offense_code_group :=
          match crimes.find?
              (fun s => s.offense_code_group.isSome && s.offense_code == r.offense_code) with
          | some s => s.offense_code_group
          | none => r.offense_code_group
        offense_description :=
          match crimes.find?
              (fun s => s.offense_description.isSome && s.offense_code == r.offense_code) with
          | some s => s.offense_description
          | none => r.offense_description } := by
  unfold fill_missing_offense_data
  simp only [List.getElem?_map, h, Option.map_some']
  have hg := lookup_dropDupBy (fun s : CrimeRow => s.offense_code)
    (fun s => s.offense_code_group) r.offense_code
    (crimes.filter (fun s => s.offense_code_group.isSome)) []
  have hd := lookup_dropDupBy (fun s : CrimeRow => s.offense_code)
    (fun s => s.offense_description) r.offense_code
    (crimes.filter (fun s => s.offense_description.isSome)) []
  simp only [List.not_mem_nil, if_false] at hg hd
  rw [find?_filter_and] at hg hd
  rw [hg, hd]
  cases hfg : crimes.find?
      (fun s => s.offense_code_group.isSome && s.offense_code == r.offense_code) with
  | none =>
      cases hfd : crimes.find?
          (fun s => s.offense_description.isSome && s.offense_code == r.offense_code) with
      | none => rfl
      | some s => rfl
  | some s =>
      cases hfd : crimes.find?
          (fun s => s.offense_description.isSome && s.offense_code == r.offense_code) with
      | none => rfl
      | some s2 => rfl

/-- C6 amended-claim witness: the donor row for code 1 is the first row,
so the first row keeps "A" and the fill is observable at index 0. -/
theorem fill_missing_offense_data_donor_witness :
    (fill_missing_offense_data [c6row1, c6row2])[0]? = some
      { c6row1 with
        offense_code_group :=
          match [c6row1, c6row2].find?
              (fun s => s.offense_code_group.isSome && s.offense_code == c6row1.offense_code) with
          | some s => s.offense_code_group
          | none => c6row1.offense_code_group
        offense_description :=
          match [c6row1, c6row2].find?
              (fun s => s.offense_description.isSome && s.offense_code == c6row1.offense_code) with
          | some s => s.offense_description
          | none => c6row1.offense_description } :=
  fill_missing_offense_data_donor [c6row1, c6row2] 0 c6row1 rfl

/-- C4 (confirmed): on a table in which every record carries a
non-missing timestamp, `drop_date_column_if_consistent` drops
`OCCURRED_ON_DATE` iff every record's `(YEAR, MONTH, DAY_OF_WEEK)`
equals the timestamp's `(year, month, English weekday name)`; when any
record disagrees the column is retained (rows unchanged) and only an
aggregate message is emitted. -/
theorem drop_date_column_iff (crimes : List CrimeRow)
    (h : ∀ r ∈ crimes, r.occurred_on_date.isSome) :
    ((drop_date_column_if_consistent crimes).dateDropped = true ↔
      ∀ r ∈ crimes, ∀ ts, r.occurred_on_date = some ts →
        r.year = some ts.year ∧ r.month = some (ts.month : Int) ∧
          r.day_of_week = some (dayName ts)) ∧
    ((drop_date_column_if_consistent crimes).dateDropped = false →
      (drop_date_column_if_consistent crimes).crimes = crimes ∧
      (drop_date_column_if_consistent crimes).message =
        "OCCURRED_ON_DATE column retained due to inconsistencies.") := by
  unfold drop_date_column_if_consistent
  by_cases hall : crimes.all is_consistent_date = true
  · rw [if_pos hall]
    refine ⟨⟨fun _ r hr ts hts => ?_, fun _ => rfl⟩, fun hf => by simp at hf⟩
    have hc := List.all_eq_true.mp hall r hr
    unfold is_consistent_date at hc
    rw [hts] at hc
    exact of_decide_eq_true hc
  · rw [if_neg hall]
    refine ⟨⟨fun hf => by simp at hf, fun hfor => ?_⟩, fun _ => ⟨rfl, rfl⟩⟩
    exfalso
    apply hall
    rw [List.all_eq_true]
    intro r hr
    obtain ⟨ts, hts⟩ := Option.isSome_iff_exists.mp (h r hr)
    unfold is_consistent_date
    rw [hts]
    exact decide_eq_true (hfor r hr ts hts)

/-- C4 witness: a single row whose split fields agree with its
timestamp (2018-09-02, a Sunday). -/
theorem drop_date_column_iff_witness :
    (drop_date_column_if_consistent [c4okRow]).dateDropped = true ↔
      ∀ r ∈ [c4okRow], ∀ ts, r.occurred_on_date = some ts →
        r.year = some ts.year ∧ r.month = some (ts.month : Int) ∧
          r.day_of_week = some (dayName ts) :=
  (drop_date_column_iff [c4okRow] (by decide)).1

/-- C10 (confirmed): the driver overwrites `YEAR`, `MONTH`,
`DAY_OF_WEEK` and `TIME` from the freshly parsed `OCCURRED_ON_DATE`
immediately before the date check, so whenever every timestamp is
non-missing the check holds vacuously and `OCCURRED_ON_DATE` is always
dropped, regardless of the derived columns' input values. -/
theorem derive_then_drop_date (crimes : List CrimeRow)
    (h : ∀ r ∈ crimes, r.occurred_on_date.isSome) :
    (drop_date_column_if_consistent (deriveDateColumns crimes)).dateDropped = true := by
  have hall : (deriveDateColumns crimes).all is_consistent_date = true := by
    rw [List.all_eq_true]
    intro r' hr'
    rw [deriveDateColumns, List.mem_map] at hr'
    obtain ⟨r, hr, rfl⟩ := hr'
    cases hts : r.occurred_on_date with
    | none =>
        have hs := h r hr
        rw [hts] at hs
        simp at hs
    | some ts =>
        simp only [hts]
        unfold is_consistent_date
        simp
  unfold drop_date_column_if_consistent
  rw [if_pos hall]

/-- C10 witness: a row whose split fields are all missing still has the
timestamp dropped after the driver's derivation step. -/
theorem derive_then_drop_date_witness :
    (drop_date_column_if_consistent (deriveDateColumns [c10row])).dateDropped = true :=
  derive_then_drop_date [c10row] (by decide)

theorem is_consistent_loc_ok {r : CrimeRow} {b : Bool}
    (h : is_consistent_loc r = .ok b) : b = codeAgreement r := by
  unfold is_consistent_loc at h
  unfold codeAgreement codeRuleA specRuleB specRuleC
  by_cases hc : (r.latitude = none ∨ r.longitude = none ∨
      (r.latitude = some 0 ∧ r.longitude = some 0)) ∧
      (r.location = none ∨ r.location = some "(0.00000000, 0.00000000)")
  · rw [if_pos hc] at h
    cases h
    rw [decide_eq_true hc]
    simp
  · rw [if_neg hc] at h
    rw [decide_eq_false hc]
    cases hl : r.location with
    | none =>
        rw [hl] at h
        simp only [Option.some.injEq] at h ⊢
        cases h
        simp
    | some s =>
        rw [hl] at h
        simp only [Option.some.injEq] at h ⊢
        cases hp : parseLocation s with
        | none =>
            rw [hp] at h
            cases h
        | some pair =>
            obtain ⟨la, lo⟩ := pair
            rw [hp] at h
            simp only [Option.some.injEq] at h ⊢
            cases h
            simp

theorem inconsistent_rows_eq {crimes : List CrimeRow} {verdicts : List Bool}
    (h : listMapE is_consistent_loc crimes = .ok verdicts) :
    ((crimes.zip verdicts).filter (fun p => !p.2)).map (fun p => p.1) =
      crimes.filter (fun r => !codeAgreement r) := by
  induction crimes generalizing verdicts with
  | nil => cases listMapE_nil_inv h; rfl
  | cons a t ih =>
      obtain ⟨b, tl, hfa, hfl, rfl⟩ := listMapE_cons_inv h
      have hb := is_consistent_loc_ok hfa
      subst hb
      rw [List.zip_cons_cons, List.filter_cons, List.filter_cons]
      cases hcb : codeAgreement a with
      | true => simp only [hcb, Bool.not_true, Bool.false_eq_true, if_false, ih hfl]
      | false =>
          simp only [hcb, Bool.not_false, if_true, List.map_cons, ih hfl]

/-- C1 counterexample: for the row (latitude missing, longitude 5,
composite = canonical zero) the code's first branch accepts and the
`LOCATION` column is dropped, yet none of the spec's agreement rules A
("both missing or both zero"), B, or C holds — so "drops iff every row
satisfies A, B, or C" is false as stated. -/
theorem drop_location_spec_ruleA_fails :
    drop_location_column_if_consistent [c1cexRow] =
      .ok ⟨[{ c1cexRow with location := none }], true, [], 0⟩ ∧
    (specRuleA c1cexRow || specRuleB c1cexRow || specRuleC c1cexRow) = false := by
  exact ⟨by with_unfolding_all rfl, by with_unfolding_all decide⟩

/-- C1 (amended): with rule A read as the code implements it —
"latitude missing OR longitude missing, or both zero" (instead of the
spec's "both missing, or both zero") — and provided the row-wise check
raises no parse error, `drop_location_column_if_consistent` drops the
`LOCATION` column iff every row satisfies amended-A, B, or C; when any
row fails, the column is retained (rows unchanged) and every
inconsistent row's latitude, longitude and composite string are reported
together with their count. -/
theorem drop_location_amended (crimes : List CrimeRow) (res : LocResult)
    (h : drop_location_column_if_consistent crimes = .ok res) :
    (res.locationDropped = true ↔ ∀ r ∈ crimes, codeAgreement r = true) ∧
    (res.locationDropped = true →
      res.crimes = crimes.map (fun r => { r with location := none })) ∧
    (res.locationDropped = false →
      res.crimes = crimes ∧
      res.inconsistent = (crimes.filter (fun r => !codeAgreement r)).map
        (fun r => (r.latitude, r.longitude, r.location)) ∧
      res.mismatchCount = (crimes.filter (fun r => !codeAgreement r)).length) := by
  unfold drop_location_column_if_consistent at h
  cases hm : listMapE is_consistent_loc crimes with
  | error e => rw [hm] at h; cases h
  | ok verdicts =>
      rw [hm] at h
      simp only at h
      have hrows := inconsistent_rows_eq hm
      by_cases hemp :
          (((crimes.zip verdicts).filter (fun p => !p.2)).map (fun p => p.1)).isEmpty = true
      · rw [if_pos hemp] at h
        cases h
        have hnil : crimes.filter (fun r => !codeAgreement r) = [] := by
          rw [← hrows]
          exact List.isEmpty_iff.mp hemp
        refine ⟨⟨fun _ r hr => ?_, fun _ => rfl⟩, fun _ => rfl, fun hf => by simp at hf⟩
        have := List.filter_eq_nil_iff.mp hnil r hr
        revert this
        cases codeAgreement r <;> simp
      · rw [if_neg hemp] at h
        cases h
        have hne : crimes.filter (fun r => !codeAgreement r) ≠ [] := by
          rw [← hrows]
          intro hcontra
          rw [hcontra] at hemp
          exact hemp rfl
        refine ⟨⟨fun hf => by simp at hf, fun hfor => ?_⟩,
          fun hf => by simp at hf, fun _ => ⟨rfl, ?_, ?_⟩⟩
        · exfalso
          apply hne
          rw [List.filter_eq_nil_iff]
          intro r hr
          rw [hfor r hr]
          simp
        · rw [hrows]
        · rw [hrows]

/-- C1 amended-claim witness: the all-zero row satisfies the amended
agreement, and the column is indeed dropped. -/
theorem drop_location_amended_witness :
    c1okRes.locationDropped = true ↔ ∀ r ∈ [c1okRow], codeAgreement r = true :=
  (drop_location_amended [c1okRow] c1okRes (by with_unfolding_all rfl)).1

/-- C8 (confirmed): on a table containing a row whose composite
`LOCATION` string is present but not of the form "(float, float)", the
consistency check raises (`ValueError`) instead of classifying the row
or recovering. -/
theorem drop_location_raises_on_malformed :
    drop_location_column_if_consistent [c8row] =
      .error "ValueError: could not convert string to float" := by
  with_unfolding_all rfl

theorem rowKey_eq_some {r : CrimeRow} {k : ℚ × ℚ} :
    rowKey r = some k ↔ (r.latitude = some k.1 ∧ r.longitude = some k.2) := by
  unfold rowKey
  obtain ⟨ka, kb⟩ := k
  cases hla : r.latitude <;> cases hlo : r.longitude <;> simp

theorem rowKey_applyKeyUpdate (orig : List CrimeRow) (k : ℚ × ℚ) (r : CrimeRow) :
    rowKey (applyKeyUpdate orig k r) = rowKey r := rfl

theorem applyKeyUpdate_idem (orig : List CrimeRow) (k : ℚ × ℚ) (r : CrimeRow) :
    applyKeyUpdate orig k (applyKeyUpdate orig k r) = applyKeyUpdate orig k r := rfl

theorem locFinal_none {r : CrimeRow} (orig : List CrimeRow) (ks : List (ℚ × ℚ))
    (h : rowKey r = none) : locFinal orig ks r = r := by
  unfold locFinal
  rw [h]

theorem locFinal_some {r : CrimeRow} {k : ℚ × ℚ} (orig : List CrimeRow) (ks : List (ℚ × ℚ))
    (h : rowKey r = some k) :
    locFinal orig ks r = if k ∈ ks then applyKeyUpdate orig k r else r := by
  unfold locFinal
  rw [h]

theorem locGroupUpdate_eq (orig : List CrimeRow) (k : ℚ × ℚ) (cur : List CrimeRow) :
    locGroupUpdate orig k cur = cur.map (fun r =>
      if rowKey r = some k then applyKeyUpdate orig k r else r) := by
  unfold locGroupUpdate applyKeyUpdate
  apply List.map_congr_left
  intro r _
  by_cases hc : r.latitude = some k.1 ∧ r.longitude = some k.2
  · rw [if_pos hc, if_pos (rowKey_eq_some.mpr hc)]
  · rw [if_neg hc, if_neg (fun hk => hc (rowKey_eq_some.mp hk))]

theorem foldl_locGroupUpdate (orig : List CrimeRow) (ks : List (ℚ × ℚ)) (cur : List CrimeRow) :
    ks.foldl (fun c k => locGroupUpdate orig k c) cur = cur.map (locFinal orig ks) := by
  induction ks generalizing cur with
  | nil =>
      rw [List.foldl_nil]
      have hid : ∀ r ∈ cur, locFinal orig [] r = r := by
        intro r _
        cases hk : rowKey r with
        | none => exact locFinal_none orig [] hk
        | some k => rw [locFinal_some orig [] hk, if_neg (List.not_mem_nil k)]
      rw [List.map_congr_left hid]
      simp
  | cons k ks ih =>
      rw [List.foldl_cons, ih, locGroupUpdate_eq, List.map_map]
      apply List.map_congr_left
      intro r _
      show locFinal orig ks (if rowKey r = some k then applyKeyUpdate orig k r else r) =
        locFinal orig (k :: ks) r
      by_cases hck : rowKey r = some k
      · rw [if_pos hck]
        have hk2 : rowKey (applyKeyUpdate orig k r) = some k := by
          rw [rowKey_applyKeyUpdate, hck]
        rw [locFinal_some orig ks hk2, applyKeyUpdate_idem, ite_self,
          locFinal_some orig (k :: ks) hck, if_pos (List.mem_cons_self k ks)]
      · rw [if_neg hck]
        cases hk : rowKey r with
        | none => rw [locFinal_none orig ks hk, locFinal_none orig (k :: ks) hk]
        | some k2 =>
            have hk2 : k2 ≠ k := fun he => hck (he ▸ hk)
            rw [locFinal_some orig ks hk, locFinal_some orig (k :: ks) hk]
            by_cases hmem : k2 ∈ ks
            · rw [if_pos hmem, if_pos (List.mem_cons_of_mem _ hmem)]
            · rw [if_neg hmem, if_neg (fun hin => by
                rcases List.mem_cons.mp hin with he | hs
                exacts [hk2 he, hmem hs])]

/-- C5 (confirmed): after `fill_missing_location_data`, every record
with non-missing coordinates has `DISTRICT` (resp. `STREET`) equal to
the first non-missing value among the rows sharing exactly its
coordinate pair — an overwrite, applied even to records that already
held a different non-missing value — and a record is never assigned
another group's values (its group is exactly the rows with its own
coordinates); records with a missing coordinate are untouched. -/
theorem fill_missing_location_spec (crimes : List CrimeRow) (i : Nat) (r : CrimeRow)
    (h : crimes[i]? = some r) :
    (∀ la lo, r.latitude = some la → r.longitude = some lo →
      (fill_missing_location_data crimes)[i]? = some
        { r with
          district := firstNonNull ((sameKeyRows crimes (la, lo)).map (fun s => s.district))
          street := firstNonNull ((sameKeyRows crimes (la, lo)).map (fun s => s.street)) }) ∧
    (rowKey r = none → (fill_missing_location_data crimes)[i]? = some r) := by
  unfold fill_missing_location_data
  rw [foldl_locGroupUpdate]
  constructor
  · intro la lo hla hlo
    have hk : rowKey r = some (la, lo) := rowKey_eq_some.mpr ⟨hla, hlo⟩
    rw [List.getElem?_map, h, Option.map_some', locFinal_some crimes _ hk]
    have hmem : (la, lo) ∈ groupKeys crimes := by
      unfold groupKeys
      rw [List.mem_dedup, List.mem_filterMap]
      exact ⟨r, List.getElem?_mem h, hk⟩
    rw [if_pos hmem]
    rfl
  · intro hk
    rw [List.getElem?_map, h, Option.map_some', locFinal_none crimes _ hk]

/-- C5 witness: the spec's scenario — two rows share coordinates (1, 2),
one with district "A", one missing; the missing one receives "A" (and
the shared street), computed from exactly its own coordinate group. -/
theorem fill_missing_location_spec_witness :
    (fill_missing_location_data [c5row1, c5row2, c5row3])[1]? = some
      { c5row2 with
        district := firstNonNull ((sameKeyRows [c5row1, c5row2, c5row3] (1, 2)).map
          (fun s => s.district))
        street := firstNonNull ((sameKeyRows [c5row1, c5row2, c5row3] (1, 2)).map
          (fun s => s.street)) } :=
  (fill_missing_location_spec [c5row1, c5row2, c5row3] 1 c5row2 rfl).1 1 2 rfl rfl

theorem dfGet_dfSet_self (df : Df) (n : String) (c : List Cell) :
    dfGet (dfSet df n c) n = some c := by
  unfold dfSet
  by_cases hh : dfHas df n = true
  · rw [if_pos hh]
    unfold dfHas at hh
    rw [List.any_eq_true] at hh
    obtain ⟨p0, hp0, hp0n⟩ := hh
    unfold dfGet
    induction df with
    | nil => cases hp0
    | cons p t ih =>
        rw [List.map_cons]
        by_cases hp : p.1 = n
        · rw [List.find?_cons_of_pos _ (by simp [hp])]
          rw [if_pos hp]
          rfl
        · rw [List.find?_cons_of_neg _ (by simp [hp])]
          rcases List.mem_cons.mp hp0 with he | ht
          · exact absurd (he ▸ of_decide_eq_true hp0n) hp
          · exact ih ht
  · rw [if_neg hh]
    unfold dfGet
    rw [List.find?_append]
    have hnone : df.find? (fun p => decide (p.1 = n)) = none := by
      rw [List.find?_eq_none]
      intro p hp hcontra
      exact hh (List.any_eq_true.mpr ⟨p, hp, hcontra⟩)
    rw [hnone, Option.none_or, List.find?_cons_of_pos _ (by simp)]
    rfl

theorem dfGet_dfSet_ne (df : Df) {m n : String} (c : List Cell) (h : m ≠ n) :
    dfGet (dfSet df n c) m = dfGet df m := by
  unfold dfSet
  by_cases hh : dfHas df n = true
  · rw [if_pos hh]
    clear hh
    unfold dfGet
    induction df with
    | nil => rfl
    | cons p t ih =>
        rw [List.map_cons]
        by_cases hp : p.1 = n
        · have hpm : ¬ p.1 = m := fun hc => h (hc ▸ hp ▸ rfl)
          rw [List.find?_cons_of_neg _ (by simp [hp, hpm, Ne.symm h]), List.find?_cons_of_neg _ (by simp [hpm])]
          exact ih
        · by_cases hm : p.1 = m
          · rw [List.find?_cons_of_pos _ (by simp [hm, h]), List.find?_cons_of_pos _ (by simp [hm])]
            rw [if_neg hp]
          · rw [List.find?_cons_of_neg _ (by simp [hp, hm]), List.find?_cons_of_neg _ (by simp [hm])]
            exact ih
  · rw [if_neg hh]
    unfold dfGet
    rw [List.find?_append, List.find?_cons_of_neg _ (by simp [Ne.symm h]), List.find?_nil, Option.or_none]

theorem dfHas_of_dfGet {df : Df} {n : String} {v : List Cell}
    (h : dfGet df n = some v) : dfHas df n = true := by
  unfold dfGet at h
  cases hf : df.find? (fun p => decide (p.1 = n)) with
  | none => rw [hf] at h; cases h
  | some p =>
      unfold dfHas
      rw [List.any_eq_true]
      have hps := List.find?_some hf
      exact ⟨p, List.mem_of_find?_eq_some hf, hps⟩

theorem colFixed_dfSet_self (df : Df) (n : String) (c : List Cell) :
    colFixed (dfSet df n c) n c := by
  refine ⟨dfGet_dfSet_self df n c, ?_⟩
  intro p hp hpn
  unfold dfSet at hp
  by_cases hh : dfHas df n = true
  · rw [if_pos hh] at hp
    rw [List.mem_map] at hp
    obtain ⟨q, hq, rfl⟩ := hp
    by_cases hqn : q.1 = n
    · rw [if_pos hqn]
    · rw [if_neg hqn] at hpn ⊢
      exact absurd hpn hqn
  · rw [if_neg hh] at hp
    rcases List.mem_append.mp hp with hin | hone
    · exfalso
      apply hh
      rw [dfHas, List.any_eq_true]
      exact ⟨p, hin, decide_eq_true hpn⟩
    · rw [List.mem_singleton.mp hone]

theorem colFixed_dfSet_ne {df : Df} {m n : String} {v : List Cell} (c : List Cell)
    (hmn : m ≠ n) (h : colFixed df m v) : colFixed (dfSet df n c) m v := by
  refine ⟨by rw [dfGet_dfSet_ne df c hmn]; exact h.1, ?_⟩
  intro p hp hpm
  unfold dfSet at hp
  by_cases hh : dfHas df n = true
  · rw [if_pos hh] at hp
    rw [List.mem_map] at hp
    obtain ⟨q, hq, rfl⟩ := hp
    by_cases hqn : q.1 = n
    · rw [if_pos hqn] at hpm ⊢
      exact absurd (hpm.symm.trans hqn) hmn
    · rw [if_neg hqn] at hpm ⊢
      exact h.2 q hq hpm
  · rw [if_neg hh] at hp
    rcases List.mem_append.mp hp with hin | hone
    · exact h.2 p hin hpm
    · rw [List.mem_singleton.mp hone] at hpm
      exact absurd hpm.symm hmn


theorem dfSet_of_colFixed {df : Df} {n : String} {v : List Cell}
    (h : colFixed df n v) : dfSet df n v = df := by
  unfold dfSet
  rw [if_pos (dfHas_of_dfGet h.1)]
  have hpt : ∀ p ∈ df, (if p.1 = n then (p.1, v) else p) = p := by
    intro p hp
    by_cases hpn : p.1 = n
    · rw [if_pos hpn]
      rw [← h.2 p hp hpn]
    · rw [if_neg hpn]
  rw [List.map_congr_left hpt]
  exact List.map_id df

theorem dfGet_upperTextCol_ne (df : Df) {m col : String} (h : m ≠ col) :
    dfGet (upperTextCol df col) m = dfGet df m := by
  unfold upperTextCol
  cases hg : dfGet df col with
  | none => rfl
  | some w => exact dfGet_dfSet_ne df _ h

theorem colFixed_upperTextCol_ne {df : Df} {m col : String} {v : List Cell}
    (h : m ≠ col) (hfix : colFixed df m v) : colFixed (upperTextCol df col) m v := by
  unfold upperTextCol
  cases hg : dfGet df col with
  | none => exact hfix
  | some w => exact colFixed_dfSet_ne _ h hfix

theorem colFixed_upperTextCol_self {df : Df} {col : String} {w : List Cell}
    (h : dfGet df col = some w) :
    colFixed (upperTextCol df col) col (w.map upperCell) := by
  unfold upperTextCol
  rw [h]
  exact colFixed_dfSet_self df col (w.map upperCell)

theorem upperTextCol_none {df : Df} {col : String} (h : dfGet df col = none) :
    upperTextCol df col = df := by
  unfold upperTextCol
  rw [h]

theorem upperTextCol_of_fixed {df : Df} {col : String} {v : List Cell}
    (hfix : colFixed df col v) (hv : v.map upperCell = v) :
    upperTextCol df col = df := by
  unfold upperTextCol
  rw [hfix.1]
  show dfSet df col (v.map upperCell) = df
  rw [hv]
  exact dfSet_of_colFixed hfix

theorem upperTextCols_eq (df : Df) :
    upperTextCols df = upperTextCol (upperTextCol (upperTextCol df "OFFENSE_DESCRIPTION")
      "DISTRICT") "STREET" := rfl

theorem map_upperCell_idem (w : List Cell) :
    (w.map upperCell).map upperCell = w.map upperCell := by
  rw [List.map_map]
  exact List.map_congr_left (fun c _ => upperCell_idem c)

theorem dfUpperCols_of_upperNames {df : Df} (h : upperNames df) : dfUpperCols df = df := by
  unfold dfUpperCols
  have hpt : ∀ p ∈ df, (pyUpper p.1, p.2) = p := by
    intro p hp
    rw [h p hp]
  rw [List.map_congr_left hpt]
  exact List.map_id df

theorem upperNames_of_goodNames {df : Df} (h : goodNames df) : upperNames df :=
  fun p hp => (h p hp).1

theorem dfRename_of_goodNames {df : Df} (h : goodNames df) : dfRename df = df := by
  unfold dfRename
  have hpt : ∀ p ∈ df,
      ((if p.1 = "LAT" then "LATITUDE" else if p.1 = "LONG" then "LONGITUDE" else p.1),
        p.2) = p := by
    intro p hp
    rw [if_neg (h p hp).2.1, if_neg (h p hp).2.2]
  rw [List.map_congr_left hpt]
  exact List.map_id df

theorem upperNames_dfUpperCols (df : Df) : upperNames (dfUpperCols df) := by
  intro p hp
  unfold dfUpperCols at hp
  rw [List.mem_map] at hp
  obtain ⟨q, hq, rfl⟩ := hp
  exact pyUpper_idem q.1

theorem goodNames_rename_upper (df : Df) : goodNames (dfRename (dfUpperCols df)) := by
  intro p hp
  unfold dfRename dfUpperCols at hp
  rw [List.mem_map] at hp
  obtain ⟨q, hq, rfl⟩ := hp
  rw [List.mem_map] at hq
  obtain ⟨q0, hq0, rfl⟩ := hq
  by_cases h1 : pyUpper q0.1 = "LAT"
  · rw [if_pos h1]
    show goodName "LATITUDE"
    exact ⟨by decide, by decide, by decide⟩
  · rw [if_neg h1]
    by_cases h2 : pyUpper q0.1 = "LONG"
    · rw [if_pos h2]
      show goodName "LONGITUDE"
      exact ⟨by decide, by decide, by decide⟩
    · rw [if_neg h2]
      show goodName (pyUpper q0.1)
      exact ⟨pyUpper_idem q0.1, h1, h2⟩

theorem goodNames_dfSet {df : Df} {n : String} (c : List Cell)
    (hn : goodName n) (h : goodNames df) : goodNames (dfSet df n c) := by
  intro p hp
  unfold dfSet at hp
  by_cases hh : dfHas df n = true
  · rw [if_pos hh] at hp
    rw [List.mem_map] at hp
    obtain ⟨q, hq, rfl⟩ := hp
    by_cases hqn : q.1 = n
    · rw [if_pos hqn]
      exact h q hq
    · rw [if_neg hqn]
      exact h q hq
  · rw [if_neg hh] at hp
    rcases List.mem_append.mp hp with hin | hone
    · exact h p hin
    · rw [List.mem_singleton.mp hone]
      exact hn

theorem goodNames_upperTextCol {df : Df} {col : String}
    (hcol : goodName col) (h : goodNames df) : goodNames (upperTextCol df col) := by
  unfold upperTextCol
  cases hg : dfGet df col with
  | none => exact h
  | some w => exact goodNames_dfSet _ hcol h

theorem map_toDatetimeCoerce_idem (l : List Cell) :
    (l.map toDatetimeCoerce).map toDatetimeCoerce = l.map toDatetimeCoerce := by
  rw [List.map_map]
  exact List.map_congr_left (fun c _ => toDatetimeCoerce_idem c)

/-- C7 (confirmed): `standardize_columns` is idempotent — applied to its
own output (column names already upper-case and renamed, coordinates
already floats, timestamps already parsed or missing, text fields
already upper-cased) it succeeds and changes nothing. -/
theorem standardize_columns_idem (crimes codes c' o' : Df)
    (h : standardize_columns crimes codes = .ok (c', o')) :
    standardize_columns c' o' = .ok (c', o') := by
  simp only [standardize_columns] at h
  cases hlat : dfGet (dfRename (dfUpperCols crimes)) "LATITUDE" with
  | none =>
      rw [hlat] at h
      cases hlon : dfGet (dfRename (dfUpperCols crimes)) "LONGITUDE" with
      | none => rw [hlon] at h; simp only at h; cases h
      | some lonCol => rw [hlon] at h; simp only at h; cases h
  | some latCol =>
  rw [hlat] at h
  cases hlon : dfGet (dfRename (dfUpperCols crimes)) "LONGITUDE" with
  | none => rw [hlon] at h; simp only at h; cases h
  | some lonCol =>
  rw [hlon] at h
  simp only at h
  cases hA : listMapE astypeFloat latCol with
  | error e =>
      rw [hA] at h
      cases hB : listMapE astypeFloat lonCol with
      | error e2 => rw [hB] at h; simp only at h; cases h
      | ok lonCol2 => rw [hB] at h; simp only at h; cases h
  | ok latCol2 =>
  rw [hA] at h
  cases hB : listMapE astypeFloat lonCol with
  | error e => rw [hB] at h; simp only at h; cases h
  | ok lonCol2 =>
  rw [hB] at h
  simp only at h
  cases hdate : dfGet (dfSet (dfSet (dfRename (dfUpperCols crimes)) "LATITUDE" latCol2)
      "LONGITUDE" lonCol2) "OCCURRED_ON_DATE" with
  | none => rw [hdate] at h; simp only at h; cases h
  | some dateCol =>
  rw [hdate] at h
  simp only at h
  injection h with hpair
  injection hpair with hc ho
  subst hc
  subst ho
  set c1 := dfRename (dfUpperCols crimes) with hc1
  set dcol2 := dateCol.map toDatetimeCoerce with hdcol
  set c2 := dfSet (dfSet c1 "LATITUDE" latCol2) "LONGITUDE" lonCol2 with hc2
  set c3 := dfSet c2 "OCCURRED_ON_DATE" dcol2 with hc3
  set X := upperTextCols c3 with hX
  set Y := dfUpperCols codes with hY
  have n1 : ("LATITUDE" : String) ≠ "LONGITUDE" := by decide
  have n2 : ("LATITUDE" : String) ≠ "OCCURRED_ON_DATE" := by decide
  have n3 : ("LONGITUDE" : String) ≠ "OCCURRED_ON_DATE" := by decide
  have n4 : ("LATITUDE" : String) ≠ "OFFENSE_DESCRIPTION" := by decide
  have n5 : ("LATITUDE" : String) ≠ "DISTRICT" := by decide
  have n6 : ("LATITUDE" : String) ≠ "STREET" := by decide
  have n7 : ("LONGITUDE" : String) ≠ "OFFENSE_DESCRIPTION" := by decide
  have n8 : ("LONGITUDE" : String) ≠ "DISTRICT" := by decide
  have n9 : ("LONGITUDE" : String) ≠ "STREET" := by decide
  have n10 : ("OCCURRED_ON_DATE" : String) ≠ "OFFENSE_DESCRIPTION" := by decide
  have n11 : ("OCCURRED_ON_DATE" : String) ≠ "DISTRICT" := by decide
  have n12 : ("OCCURRED_ON_DATE" : String) ≠ "STREET" := by decide
  have n13 : ("OFFENSE_DESCRIPTION" : String) ≠ "DISTRICT" := by decide
  have n14 : ("OFFENSE_DESCRIPTION" : String) ≠ "STREET" := by decide
  have n15 : ("DISTRICT" : String) ≠ "STREET" := by decide
  have gLAT : goodName "LATITUDE" := ⟨by decide, by decide, by decide⟩
  have gLON : goodName "LONGITUDE" := ⟨by decide, by decide, by decide⟩
  have gOD : goodName "OCCURRED_ON_DATE" := ⟨by decide, by decide, by decide⟩
  have gDE : goodName "OFFENSE_DESCRIPTION" := ⟨by decide, by decide, by decide⟩
  have gDI : goodName "DISTRICT" := ⟨by decide, by decide, by decide⟩
  have gST : goodName "STREET" := ⟨by decide, by decide, by decide⟩
  have g1 : goodNames c1 := goodNames_rename_upper crimes
  have g3 : goodNames c3 := by
    rw [hc3, hc2]
    exact goodNames_dfSet _ gOD (goodNames_dfSet _ gLON (goodNames_dfSet _ gLAT g1))
  have gX : goodNames X := by
    rw [hX, upperTextCols_eq]
    exact goodNames_upperTextCol gST (goodNames_upperTextCol gDI
      (goodNames_upperTextCol gDE g3))
  have cfLAT3 : colFixed c3 "LATITUDE" latCol2 := by
    rw [hc3, hc2]
    exact colFixed_dfSet_ne _ n2 (colFixed_dfSet_ne _ n1 (colFixed_dfSet_self c1 _ _))
  have cfLON3 : colFixed c3 "LONGITUDE" lonCol2 := by
    rw [hc3, hc2]
    exact colFixed_dfSet_ne _ n3 (colFixed_dfSet_self _ _ _)
  have cfOD3 : colFixed c3 "OCCURRED_ON_DATE" dcol2 := by
    rw [hc3]
    exact colFixed_dfSet_self _ _ _
  have cfLATX : colFixed X "LATITUDE" latCol2 := by
    rw [hX, upperTextCols_eq]
    exact colFixed_upperTextCol_ne n6 (colFixed_upperTextCol_ne n5
      (colFixed_upperTextCol_ne n4 cfLAT3))
  have cfLONX : colFixed X "LONGITUDE" lonCol2 := by
    rw [hX, upperTextCols_eq]
    exact colFixed_upperTextCol_ne n9 (colFixed_upperTextCol_ne n8
      (colFixed_upperTextCol_ne n7 cfLON3))
  have cfODX : colFixed X "OCCURRED_ON_DATE" dcol2 := by
    rw [hX, upperTextCols_eq]
    exact colFixed_upperTextCol_ne n12 (colFixed_upperTextCol_ne n11
      (colFixed_upperTextCol_ne n10 cfOD3))
  have hupX : dfUpperCols X = X := dfUpperCols_of_upperNames (upperNames_of_goodNames gX)
  have hrnX : dfRename X = X := dfRename_of_goodNames gX
  have hODX : upperTextCol X "OFFENSE_DESCRIPTION" = X := by
    cases hg : dfGet c3 "OFFENSE_DESCRIPTION" with
    | none =>
        apply upperTextCol_none
        rw [hX, upperTextCols_eq, dfGet_upperTextCol_ne _ n14, dfGet_upperTextCol_ne _ n13,
          upperTextCol_none hg]
        exact hg
    | some w =>
        refine upperTextCol_of_fixed ?_ (map_upperCell_idem w)
        rw [hX, upperTextCols_eq]
        exact colFixed_upperTextCol_ne n14 (colFixed_upperTextCol_ne n13
          (colFixed_upperTextCol_self hg))
  have hDIX : upperTextCol X "DISTRICT" = X := by
    cases hg : dfGet (upperTextCol c3 "OFFENSE_DESCRIPTION") "DISTRICT" with
    | none =>
        apply upperTextCol_none
        rw [hX, upperTextCols_eq, dfGet_upperTextCol_ne _ n15, upperTextCol_none hg]
        exact hg
    | some w =>
        refine upperTextCol_of_fixed ?_ (map_upperCell_idem w)
        rw [hX, upperTextCols_eq]
        exact colFixed_upperTextCol_ne n15 (colFixed_upperTextCol_self hg)
  have hSTX : upperTextCol X "STREET" = X := by
    cases hg : dfGet (upperTextCol (upperTextCol c3 "OFFENSE_DESCRIPTION") "DISTRICT")
        "STREET" with
    | none =>
        apply upperTextCol_none
        rw [hX, upperTextCols_eq, upperTextCol_none hg]
        exact hg
    | some w =>
        refine upperTextCol_of_fixed ?_ (map_upperCell_idem w)
        rw [hX, upperTextCols_eq]
        exact colFixed_upperTextCol_self hg
  have hUTX : upperTextCols X = X := by
    rw [upperTextCols_eq, hODX, hDIX, hSTX]
  have hYfix : dfUpperCols Y = Y := by
    rw [hY]
    exact dfUpperCols_of_upperNames (upperNames_dfUpperCols codes)
  have hddX : dcol2.map toDatetimeCoerce = dcol2 := by
    rw [hdcol]
    exact map_toDatetimeCoerce_idem dateCol
  show standardize_columns X Y = .ok (X, Y)
  simp only [standardize_columns]
  rw [hupX, hrnX, cfLATX.1, cfLONX.1]
  simp only
  rw [listMapE_astype_fix hA, listMapE_astype_fix hB]
  simp only
  rw [dfSet_of_colFixed cfLATX, dfSet_of_colFixed cfLONX, cfODX.1]
  simp only
  rw [hddX, dfSet_of_colFixed cfODX, hUTX, hYfix]

/-- C7 witness: a concrete raw table (legacy `lat`/`Long` names, numeric
text, one parseable and one unparseable timestamp, mixed-case text)
whose normalized output is a fixed point of `standardize_columns`. -/
theorem standardize_columns_idem_witness :
    standardize_columns c7outCrimes c7outCodes = .ok (c7outCrimes, c7outCodes) :=
  standardize_columns_idem c7crimes c7codes c7outCrimes c7outCodes (by with_unfolding_all rfl)

/-- C3 counterexample: a table whose `LATITUDE` column holds the
non-numeric text "abc" makes `standardize_columns` abort with an error —
it is not converted to a missing-value marker — refuting "never aborts
on malformed data". -/
theorem standardize_columns_aborts_on_bad_coordinate :
    standardize_columns c3crimes [] =
      .error "ValueError: could not convert string to float" := by
  with_unfolding_all rfl

/-- C3 (amended): `standardize_columns` recovers only timestamp errors:
whenever the coordinate columns are present and every coordinate cell is
float-convertible, the run succeeds no matter what text the timestamp
column holds, the output timestamp column is the elementwise coercion of
the input one, and coercion sends every unparseable string to the
missing marker; non-numeric coordinate text instead aborts the run (see
the counterexample). -/
theorem standardize_columns_degrades_timestamps (crimes codes : Df)
    (latCol lonCol dateCol latCol2 lonCol2 : List Cell)
    (hlat : dfGet (dfRename (dfUpperCols crimes)) "LATITUDE" = some latCol)
    (hlon : dfGet (dfRename (dfUpperCols crimes)) "LONGITUDE" = some lonCol)
    (hA : listMapE astypeFloat latCol = .ok latCol2)
    (hB : listMapE astypeFloat lonCol = .ok lonCol2)
    (hdate : dfGet (dfRename (dfUpperCols crimes)) "OCCURRED_ON_DATE" = some dateCol) :
    ∃ out : Df × Df, standardize_columns crimes codes = .ok out ∧
      dfGet out.1 "OCCURRED_ON_DATE" = some (dateCol.map toDatetimeCoerce) ∧
      ∀ s, parseDatetime s = none → toDatetimeCoerce (.str s) = .null := by
  have n2 : ("OCCURRED_ON_DATE" : String) ≠ "LATITUDE" := by decide
  have n3 : ("OCCURRED_ON_DATE" : String) ≠ "LONGITUDE" := by decide
  have hdate2 : dfGet (dfSet (dfSet (dfRename (dfUpperCols crimes)) "LATITUDE" latCol2)
      "LONGITUDE" lonCol2) "OCCURRED_ON_DATE" = some dateCol := by
    rw [dfGet_dfSet_ne _ _ n3, dfGet_dfSet_ne _ _ n2]
    exact hdate
  refine ⟨(upperTextCols (dfSet (dfSet (dfSet (dfRename (dfUpperCols crimes))
      "LATITUDE" latCol2) "LONGITUDE" lonCol2) "OCCURRED_ON_DATE"
      (dateCol.map toDatetimeCoerce)), dfUpperCols codes), ?_, ?_, ?_⟩
  · simp only [standardize_columns]
    rw [hlat, hlon]
    simp only
    rw [hA, hB]
    simp only
    rw [hdate2]
  · have n10 : ("OCCURRED_ON_DATE" : String) ≠ "OFFENSE_DESCRIPTION" := by decide
    have n11 : ("OCCURRED_ON_DATE" : String) ≠ "DISTRICT" := by decide
    have n12 : ("OCCURRED_ON_DATE" : String) ≠ "STREET" := by decide
    rw [upperTextCols_eq, dfGet_upperTextCol_ne _ n12, dfGet_upperTextCol_ne _ n11,
      dfGet_upperTextCol_ne _ n10, dfGet_dfSet_self]
  · intro s hs
    unfold toDatetimeCoerce
    simp only
    rw [hs]

/-- C3 amended-claim witness: numeric/missing coordinates with the
unparseable timestamp text "junk"; the run succeeds and the cell is
coerced to missing. -/
theorem standardize_columns_degrades_timestamps_witness :
    ∃ out : Df × Df, standardize_columns c3okCrimes [] = .ok out ∧
      dfGet out.1 "OCCURRED_ON_DATE" = some ([Cell.str "junk"].map toDatetimeCoerce) ∧
      ∀ s, parseDatetime s = none → toDatetimeCoerce (.str s) = .null :=
  standardize_columns_degrades_timestamps c3okCrimes [] [Cell.num 1] [Cell.null]
    [Cell.str "junk"] [Cell.num 1] [Cell.null] (by rfl) (by rfl) (by rfl) (by rfl) (by rfl)
